import Mathlib

set_option maxRecDepth 4000

/-!
Verification development for the meta-hybrid_mount hybrid mount engine.

Shallow embedding of the Rust sources:
  * `src/core/poaceae.rs`   — fixed-layout ioctl protocol (variant A)
  * `src/mount/hymofs.rs`   — pointer-bearing ioctl protocol (variant B),
                               availability check, directory injection
  * `src/main.rs`           — storage provisioning, module classification,
                               partition grouping, overlay/magic dispatch
  * `src/mount/overlay.rs`  — recursive OverlayFS composition with
                               bind-mount fallback and rollback

External kernel state (filesystem probes, mount syscall outcomes) is
modelled as explicit environments; mount/ioctl side effects are modelled
as event traces.
-/

namespace Poaceae

/-! Embedding of `src/core/poaceae.rs`.  Names are byte sequences
(`&str::as_bytes`), modelled as `List Nat`.  An ioctl issued to the
driver is recorded as a `PoaCall`; each operation returns the list of
ioctls it issued together with its result, so "rejected before any
ioctl is issued" is the statement that the call list is empty. -/

/-- One ioctl issued by the variant-A protocol.  `bufCall nr buf` is an
`ioctl_write_ptr` call with request number `nr` carrying a fixed-size
byte buffer; `spoofCall` carries the `IoctlSpoofArgs` struct fields. -/
inductive PoaCall where
  | bufCall (nr : Nat) (buf : List Nat)
  | spoofCall (name : List Nat) (uid gid mode mtime : Nat)
  deriving DecidableEq, Repr

/-- Errors raised at the encoding boundary. -/
inductive PoaErr where
  | nameTooLong
  | payloadTooLong
  deriving DecidableEq, Repr

/-- `let mut buf = [0u8; 256]; buf[..bytes.len()].copy_from_slice(bytes)`:
the name NUL-padded into a 256-byte buffer. -/
def encodeNameBuf (name : List Nat) : List Nat :=
  name ++ List.replicate (256 - name.length) 0

/-- `pub fn hide` (poaceae.rs:29): reject names of encoded length ≥ 256,
otherwise issue `add_hide` (request nr 1) with the padded buffer. -/
def hide (name : List Nat) : List PoaCall × Except PoaErr Unit :=
  if name.length ≥ 256 then ([], .error .nameTooLong)
  else ([.bufCall 1 (encodeNameBuf name)], .ok ())

/-- `pub fn unhide` (poaceae.rs:40): `del_hide` is request nr 2. -/
def unhide (name : List Nat) : List PoaCall × Except PoaErr Unit :=
  if name.length ≥ 256 then ([], .error .nameTooLong)
  else ([.bufCall 2 (encodeNameBuf name)], .ok ())

/-- `pub fn unredirect` (poaceae.rs:63): `del_redirect` is request nr 5. -/
def unredirect (src : List Nat) : List PoaCall × Except PoaErr Unit :=
  if src.length ≥ 256 then ([], .error .nameTooLong)
  else ([.bufCall 5 (encodeNameBuf src)], .ok ())

/-- `pub fn spoof` (poaceae.rs:74): reject long names, otherwise issue
`add_spoof` (request nr 7) with the `IoctlSpoofArgs` struct whose name
field is the NUL-padded buffer. -/
def spoof (name : List Nat) (uid gid mode mtime : Nat) :
    List PoaCall × Except PoaErr Unit :=
  if name.length ≥ 256 then ([], .error .nameTooLong)
  else ([.spoofCall (encodeNameBuf name) uid gid mode mtime], .ok ())

/-- `pub fn unspoof` (poaceae.rs:99): `del_spoof` is request nr 8. -/
def unspoof (name : List Nat) : List PoaCall × Except PoaErr Unit :=
  if name.length ≥ 256 then ([], .error .nameTooLong)
  else ([.bufCall 8 (encodeNameBuf name)], .ok ())

/-- `pub fn unmerge` (poaceae.rs:122): `del_merge` is request nr 11. -/
def unmerge (src : List Nat) : List PoaCall × Except PoaErr Unit :=
  if src.length ≥ 256 then ([], .error .nameTooLong)
  else ([.bufCall 11 (encodeNameBuf src)], .ok ())

/-! C-struct layout of `IoctlSpoofArgs` (poaceae.rs:8-17).  The struct is
`repr(C)`; its size is determined by the platform C layout rules: each
field is placed at its offset rounded up to the field's alignment, and
the struct size is the end offset rounded up to the maximal field
alignment. -/

/-- Round `off` up to the next multiple of `a`. -/
def alignUp (off a : Nat) : Nat := (off + a - 1) / a * a

/-- Fold the `repr(C)` layout over a field list of (size, alignment)
pairs, returning the unpadded end offset and the struct alignment. -/
def cLayoutEnd (fields : List (Nat × Nat)) : Nat × Nat :=
  fields.foldl (fun acc f => (alignUp acc.1 f.2 + f.1, max acc.2 f.2)) (0, 1)

/-- Total `repr(C)` struct size: end offset rounded up to the struct
alignment. -/
def cStructSize (fields : List (Nat × Nat)) : Nat :=
  alignUp (cLayoutEnd fields).1 (cLayoutEnd fields).2

/-- Fields of `IoctlSpoofArgs` in declaration order, as (size, align):
`name: [u8; 256]`, `uid: u32`, `gid: u32`, `mode: u16`, `mtime: u64`. -/
def ioctlSpoofArgsFields : List (Nat × Nat) :=
  [(256, 1), (4, 4), (4, 4), (2, 2), (8, 8)]

/-- `std::mem::size_of::<IoctlSpoofArgs>()` under the C layout rules. -/
def ioctlSpoofArgsSize : Nat := cStructSize ioctlSpoofArgsFields

/-- The compile-time assertion constant (poaceae.rs:17):
`assert!(size_of::<IoctlSpoofArgs>() == 256 + 4 + 4 + 2 + 8 + 6)`. -/
def spoofSizeAssertConst : Nat := 256 + 4 + 4 + 2 + 8 + 6

/-- The plain sum of the declared wire field sizes
name(256) + uid(4) + gid(4) + mode(2) + mtime(8). -/
def spoofFieldSizeSum : Nat := 256 + 4 + 4 + 2 + 8

end Poaceae

namespace Hymo

/-! Embedding of `src/mount/hymofs.rs`. -/

/-- `EXPECTED_PROTOCOL_VERSION` (hymofs.rs:12). -/
def EXPECTED_PROTOCOL_VERSION : Int := 4

/-- `pub enum HymoFsStatus` (hymofs.rs:167-173). -/
inductive HymoFsStatus where
  | Available
  | NotPresent
  | KernelTooOld
  | ModuleTooOld
  deriving DecidableEq, Repr

/-- `HymoFs::check_status` (hymofs.rs:183-207).  The environment is the
outcome of opening the control device (`openOk`) and of the get-version
ioctl (`versionRes = none` when the ioctl fails, `some v` when it
reports driver version `v`). -/
def check_status (openOk : Bool) (versionRes : Option Int) : HymoFsStatus :=
  if ¬ openOk then .NotPresent
  else
    match versionRes with
    | none => .NotPresent
    | some version =>
      if version ≠ EXPECTED_PROTOCOL_VERSION then
        if version < EXPECTED_PROTOCOL_VERSION then .KernelTooOld
        else .ModuleTooOld
      else .Available

/-- `pub enum HymoRule` (hymofs.rs:69-82), with paths as strings. -/
inductive HymoRule where
  | Redirect (src target : String) (fileType : Int)
  | Hide (path : String)
  | Inject (dir : String)
  deriving DecidableEq, Repr

/-- The file type of one walked directory entry.  A character device
carries its raw device number (`metadata.rdev()`). -/
inductive FType where
  | charDev (rdev : Nat)
  | dir
  | symlink
  | file
  deriving DecidableEq, Repr

/-- Rules emitted for one `WalkDir` entry in `HymoFs::inject_directory`
(hymofs.rs:230-266).  `rel` is the entry path relative to the module
dir (`strip_prefix`), so `target_path = target_base.join(rel)` and the
redirect target is the real entry path `module_dir.join(rel)`. -/
def rulesForEntry (targetBase moduleDir rel : String) (t : FType) :
    List HymoRule :=
  let targetPath := targetBase ++ "/" ++ rel
  let entryPath := moduleDir ++ "/" ++ rel
  match t with
  | .charDev rdev =>
    if rdev = 0 then [.Hide targetPath] else []
  | .dir => [.Inject targetPath, .Redirect targetPath entryPath 4]
  | .symlink => [.Redirect targetPath entryPath 10]
  | .file => [.Redirect targetPath entryPath 8]

/-- `HymoFs::inject_directory` (hymofs.rs:218-272): one leading
`Inject{target_base}` rule, then the rules of every walked entry in
pre-order. -/
def inject_directory (targetBase moduleDir : String)
    (entries : List (String × FType)) : List HymoRule :=
  .Inject targetBase ::
    entries.flatMap (fun e => rulesForEntry targetBase moduleDir e.1 e.2)

end Hymo

namespace Storage

/-! Embedding of `setup_storage` (src/main.rs:220-254). -/

/-- External outcomes the provisioning run depends on. -/
structure StorageEnv where
  tmpfsMountOk : Bool
  xattrSupported : Bool
  imageExists : Bool
  imageMountOk : Bool

/-- Observable side effects of `setup_storage`. -/
inductive SEvent where
  | tmpfsMounted
  | unmountedDetach
  | imageMounted
  deriving DecidableEq, Repr

/-- Failures of `setup_storage`. -/
inductive StorageErr where
  | imageMissing
  | imageMountFailed
  deriving DecidableEq, Repr

/-- `fn setup_storage(mnt_dir, image_path, force_ext4)`:  unless
`force_ext4`, try tmpfs first; keep it only when the xattr probe
succeeds, otherwise unmount (detach) and fall through to the ext4
image, which must exist. -/
def setup_storage (env : StorageEnv) (forceExt4 : Bool) :
    List SEvent × Except StorageErr String :=
  let tmpfsPhase : List SEvent × Option String :=
    if forceExt4 then ([], none)
    else if ¬ env.tmpfsMountOk then ([], none)
    else if env.xattrSupported then ([.tmpfsMounted], some "tmpfs")
    else ([.tmpfsMounted, .unmountedDetach], none)
  match tmpfsPhase with
  | (ev, some s) => (ev, .ok s)
  | (ev, none) =>
    if ¬ env.imageExists then (ev, .error .imageMissing)
    else if env.imageMountOk then (ev ++ [.imageMounted], .ok "ext4")
    else (ev, .error .imageMountFailed)

end Storage

namespace OverlayOpts

/-! Embedding of the overlay option construction in `mount_overlayfs`
(src/mount/overlay.rs:18-89).  The preferred fsopen/fsconfig path is a
sequence of `fsconfig_set_string` key/value calls; the classic mount
syscall fallback is a comma-joined `data` string.  Both are built from
the same shared `lowerdir_config`, `upperdir_s`, `workdir_s` values. -/

/-- `lowerdir_config` (overlay.rs:26-31): colon-join of the ordered
lower dirs chained with the stock root as last (lowest) layer. -/
def lowerdir_config (lowerDirs : List String) (lowest : String) : String :=
  String.intercalate ":" (lowerDirs ++ [lowest])

/-- `upperdir.filter(|up| up.exists())` (overlay.rs:40-45): keep a
supplied upper/work dir only when it exists on disk. -/
def existingDir (fsExists : String → Bool) (o : Option String) : Option String :=
  match o with
  | some p => if fsExists p then some p else none
  | none => none

/-- The `fsconfig_set_string` calls of the preferred path
(overlay.rs:50-55), in order: `lowerdir`, then `upperdir`/`workdir`
only when both survive the exists-filter, then `source`.  `u`/`w` are
the shared `upperdir_s`/`workdir_s` values. -/
def fsconfigPairs (lowerDirs : List String) (lowest : String)
    (u w : Option String) (src : String) : List (String × String) :=
  [("lowerdir", lowerdir_config lowerDirs lowest)] ++
    (match u, w with
     | some us, some ws => [("upperdir", us), ("workdir", ws)]
     | _, _ => []) ++
  [("source", src)]

/-- The classic fallback `data` string (overlay.rs:69-72):
`lowerdir=...` extended with `,upperdir=...,workdir=...` only when both
are present. -/
def fallbackData (lowerDirs : List String) (lowest : String)
    (u w : Option String) : String :=
  let data := "lowerdir=" ++ lowerdir_config lowerDirs lowest
  match u, w with
  | some us, some ws => data ++ ",upperdir=" ++ us ++ ",workdir=" ++ ws
  | _, _ => data

/-- Render a key/value option list as a classic comma-joined mount
data string. -/
def joinPairs : List (String × String) → String
  | [] => ""
  | [kv] => kv.1 ++ "=" ++ kv.2
  | kv :: rest => kv.1 ++ "=" ++ kv.2 ++ "," ++ joinPairs rest

end OverlayOpts

namespace OverlayMount

/-! Embedding of `mount_overlay` / `mount_overlay_child` / `bind_mount`
(src/mount/overlay.rs:91-246).  The kernel mount namespace and the
on-disk trees are external state, modelled by the probe/outcome
environment `Fs`; performed mount operations are recorded as events. -/

/-- A mount operation that actually took effect. -/
inductive MEvent where
  | overlayMounted (dest : String)
  | bindMounted (dest : String)
  | unmounted (dest : String)
  deriving DecidableEq, Repr

/-- Filesystem probes and syscall outcomes.  `pathExists p` is
`Path::new(p).exists()`, `isDir p` is `Path::new(p).is_dir()`;
`overlayMountOk dest` is the success of `mount_overlayfs` at `dest`
(either the fsopen path or its classic fallback), `bindMountOk dest`
of `bind_mount` onto `dest`, `unmountOk dest` of
`unmount(dest, DETACH)`, and `chdirOk` of `set_current_dir(root)`. -/
structure Fs where
  pathExists : String → Bool
  isDir : String → Bool
  overlayMountOk : String → Bool
  bindMountOk : String → Bool
  unmountOk : String → Bool
  chdirOk : Bool

/-- Outcome of `mount_overlayfs(..., dest)`: the mount event on
success, nothing on failure.  The `Bool` is Ok/Err. -/
def mountOverlayfsAt (fs : Fs) (dest : String) : List MEvent × Bool :=
  if fs.overlayMountOk dest then ([.overlayMounted dest], true) else ([], false)

/-- Outcome of `bind_mount(from, to)` at destination `dest`. -/
def bindMountAt (fs : Fs) (dest : String) : List MEvent × Bool :=
  if fs.bindMountOk dest then ([.bindMounted dest], true) else ([], false)

/-- `Path::new(base).join(rel)`: a Rust path join replaces the base
entirely when `rel` is absolute (starts with a slash). -/
def rustJoin (base rel : String) : String :=
  match rel.data with
  | '/' :: _ => rel
  | _ => base ++ "/" ++ rel

/-- The lower-dir collection loop of `mount_overlay_child`
(overlay.rs:147-155): push each `lower/relative` that is a directory;
if one exists but is not a directory the whole child step early-returns
Ok with no mount (`none` here encodes that early return). -/
def collectLowerDirs (fs : Fs) (moduleRoots : List String) (relative : String) :
    Option (List String) :=
  match moduleRoots with
  | [] => some []
  | lower :: rest =>
    let lp := rustJoin lower relative
    if fs.isDir lp then
      (collectLowerDirs fs rest relative).map (lp :: ·)
    else if fs.pathExists lp then none
    else collectLowerDirs fs rest relative

/-- `fn mount_overlay_child` (overlay.rs:124-179).  Result `Bool` is
Ok/Err: the only error exits are a failed bind mount (either the
no-contribution re-bind, or the bind fallback after a failed child
overlay). -/
def mount_overlay_child (fs : Fs) (mountPoint relative : String)
    (moduleRoots : List String) (stockRoot : String) : List MEvent × Bool :=
  if ¬ moduleRoots.any (fun lower => fs.pathExists (rustJoin lower relative)) then
    bindMountAt fs mountPoint
  else if ¬ fs.isDir stockRoot then ([], true)
  else
    match collectLowerDirs fs moduleRoots relative with
    | none => ([], true)
    | some lowerDirs =>
      if lowerDirs.isEmpty then ([], true)
      else
        let r := mountOverlayfsAt fs mountPoint
        if r.2 then r else bindMountAt fs mountPoint

/-- `mount_point.replacen(root, "", 1)` for a mount point inside
`root`: drop the root prefix. -/
def relativeOf (root mountPoint : String) : String :=
  mountPoint.drop root.length

/-- `format!("{stock_root}{relative}")` with `stock_root = "."`. -/
def stockRootOf (root mountPoint : String) : String :=
  "." ++ relativeOf root mountPoint

/-- The child loop of `mount_overlay` (overlay.rs:217-238) over the
frozen mount snapshot: skip entries whose stock path no longer exists,
run the child step, and on a child error unmount (detach) the root
overlay and return the error. -/
def processChildren (fs : Fs) (root : String) (moduleRoots : List String) :
    List String → List MEvent × Bool
  | [] => ([], true)
  | mountPoint :: rest =>
    let stockRoot := stockRootOf root mountPoint
    if ¬ fs.pathExists stockRoot then
      processChildren fs root moduleRoots rest
    else
      let r := mount_overlay_child fs mountPoint (relativeOf root mountPoint)
        moduleRoots stockRoot
      if r.2 then
        let r2 := processChildren fs root moduleRoots rest
        (r.1 ++ r2.1, r2.2)
      else if fs.unmountOk root then (r.1 ++ [.unmounted root], false)
      else (r.1, false)

/-- `pub fn mount_overlay` (overlay.rs:181-240): chdir to the root,
mount the root overlay (abort untouched if that fails), then process
the snapshot children.  `mountSeq` is the frozen, filtered, sorted and
deduplicated snapshot of sub-mountpoints read from `/proc` before the
root mount. -/
def mount_overlay (fs : Fs) (root : String) (moduleRoots : List String)
    (mountSeq : List String) : List MEvent × Bool :=
  if ¬ fs.chdirOk then ([], false)
  else
    let r := mountOverlayfsAt fs root
    if r.2 then
      let c := processChildren fs root moduleRoots mountSeq
      (r.1 ++ c.1, c.2)
    else (r.1, false)

/-- A snapshot entry on which the child step fails after its bind
fallback also failed: the entry is not skipped (its stock path exists)
and `mount_overlay_child` returns an error. -/
def childStepFails (fs : Fs) (root : String) (moduleRoots : List String)
    (mountPoint : String) : Bool :=
  fs.pathExists (stockRootOf root mountPoint) &&
    ¬ (mount_overlay_child fs mountPoint (relativeOf root mountPoint)
        moduleRoots (stockRootOf root mountPoint)).2

/-- Whether, after replaying an event trace, an overlay is left mounted
on `dest`: the last overlay-mount/unmount event at `dest` decides. -/
def mountedAfter (events : List MEvent) (dest : String) : Bool :=
  events.foldl
    (fun st e =>
      match e with
      | .overlayMounted d => if d = dest then true else st
      | .unmounted d => if d = dest then false else st
      | .bindMounted _ => st)
    false

/-- Concrete environment in which the single snapshot entry
`/system/sub` has a contributing lower dir but its child overlay mount
and the bind fallback both fail, while the root overlay mounts fine. -/
def fsC1 : Fs where
  pathExists := fun s => s == "./sub" || s == "/sub"
  isDir := fun s => s == "./sub" || s == "/sub"
  overlayMountOk := fun s => s == "/system"
  bindMountOk := fun _ => false
  unmountOk := fun _ => true
  chdirOk := true

/-- Concrete environment for a snapshot entry whose stock path exists
but is not a directory while no lower dir contributes to its relative
path. -/
def fsC6 : Fs where
  pathExists := fun s => s == "./sub"
  isDir := fun _ => false
  overlayMountOk := fun _ => false
  bindMountOk := fun _ => true
  unmountOk := fun _ => true
  chdirOk := true

/-- Concrete environment for a snapshot entry whose stock path exists
but is not a directory while a lower dir does have an entry at its
relative path. -/
def fsC6A : Fs where
  pathExists := fun s => s == "./sub" || s == "/sub"
  isDir := fun _ => false
  overlayMountOk := fun _ => false
  bindMountOk := fun _ => true
  unmountOk := fun _ => true
  chdirOk := true

end OverlayMount

namespace Classify

/-! Embedding of the module-classification and partition-grouping loop
of `run` (src/main.rs:450-514), and of the magic-mount fallback pass. -/

/-- `module_modes.get(&module_id).map(|s| s.as_str()).unwrap_or("auto")`
(main.rs:476): the resolved mount mode of a module. -/
def resolveMode (modes : List (String × String)) (id : String) : String :=
  match modes.lookup id with
  | some m => m
  | none => "auto"

/-- `partition_overlay_map.entry(part).or_default().push(path)`
(main.rs:488-490) on an association-list model of the map. -/
def pushPart (pmap : List (String × List String)) (part path : String) :
    List (String × List String) :=
  match pmap with
  | [] => [(part, [path])]
  | kv :: rest =>
    if kv.1 = part then (kv.1, kv.2 ++ [path]) :: rest
    else kv :: pushPart rest part path

/-- The inner partition loop for one Auto module (main.rs:485-492):
for each partition name in the combined list, append the module's
content path when `content_path/part` is a directory. -/
def addAuto : List String → (String → Bool) → String →
    List (String × List String) → List (String × List String)
  | [], _, _, pmap => pmap
  | part :: rest, isDir, path, pmap =>
    addAuto rest isDir path
      (if isDir (path ++ "/" ++ part) then pushPart pmap part path else pmap)

/-- `HashSet::insert` on a membership-model of the magic set. -/
def insertSet (s : List String) (x : String) : List String :=
  if x ∈ s then s else s ++ [x]

/-- One iteration of the grouping loop (main.rs:475-494): a module
resolved to `magic` goes into the magic set, otherwise its content path
is appended to the layer list of every partition it carries. -/
def groupStep (modes : List (String × String)) (parts : List String)
    (isDir : String → Bool)
    (acc : List (String × List String) × List String) (m : String × String) :
    List (String × List String) × List String :=
  if resolveMode modes m.1 = "magic" then (acc.1, insertSet acc.2 m.2)
  else (addAuto parts isDir m.2 acc.1, acc.2)

/-- The grouping loop over the scanned modules with an explicit
accumulator (partition overlay map, magic-mount set). -/
def groupLoop (modes : List (String × String)) (parts : List String)
    (isDir : String → Bool) :
    List (String × String) → List (String × List String) × List String →
    List (String × List String) × List String
  | [], acc => acc
  | m :: rest, acc => groupLoop modes parts isDir rest (groupStep modes parts isDir acc m)

/-- The whole grouping loop over the scanned modules, in the order the
module map yields them.  Returns the partition overlay map and the
magic-mount set. -/
def groupModules (mods : List (String × String))
    (modes : List (String × String)) (parts : List String)
    (isDir : String → Bool) :
    List (String × List String) × List String :=
  groupLoop modes parts isDir mods ([], [])

/-- The layer list recorded for one partition. -/
def layersOf (pmap : List (String × List String)) (part : String) :
    List String :=
  match pmap.lookup part with
  | some l => l
  | none => []

/-- `modules.iter().map(|m| m.join(part))` (main.rs:502-504): the
ordered lower directories passed to the overlay mount of `part`. -/
def overlayPaths (pmap : List (String × List String)) (part : String) :
    List String :=
  (layersOf pmap part).map (fun m => m ++ "/" ++ part)

/-- A content path occurs in some partition's layer list. -/
def InLayers (pmap : List (String × List String)) (q : String) : Prop :=
  ∃ pl ∈ pmap, q ∈ pl.2

/-- `for m in modules { magic_mount_modules.insert(m.clone()); }`
(main.rs:510-512). -/
def insertAll : List String → List String → List String
  | [], s => s
  | m :: rest, s => insertAll rest (insertSet s m)

/-- The first mount pass of `run` (main.rs:500-514): for every
partition whose `mount_overlay` call fails, insert all of that
partition's modules into the magic-mount set.  `doMount part mods`
abstracts the success of the `mount_overlay` call for that
partition. -/
def runPass1Loop (doMount : String → List String → Bool) :
    List (String × List String) → List String → List String
  | [], magic => magic
  | pm :: rest, magic =>
    runPass1Loop doMount rest
      (if doMount pm.1 pm.2 then magic else insertAll pm.2 magic)

/-- The whole first mount pass, starting from the magic set `magic0`
produced by classification. -/
def runPass1 (pmap : List (String × List String))
    (doMount : String → List String → Bool) (magic0 : List String) :
    List String :=
  runPass1Loop doMount pmap magic0

/-- `BUILTIN_PARTITIONS` (main.rs:64). -/
def BUILTIN_PARTITIONS : List String :=
  ["system", "vendor", "product", "system_ext", "odm", "oem"]

/-- Two modules as discovered by the storage scan, in directory listing
order: `a` before `b`, both carrying a `system` subtree. -/
def modsScanC2 : List (String × String) := [("a", "/m/a"), ("b", "/m/b")]

/-- The on-disk directory probe for the `modsScanC2` scenario. -/
def isDirC2 : String → Bool :=
  fun s => s == "/m/a/system" || s == "/m/b/system"

end Classify

/-! ## Theorems -/

namespace Poaceae

/-- Claim C8, counterexample: the `repr(C)` size of `IoctlSpoofArgs` is
280 bytes, which is not the sum 274 of the declared field sizes — the
struct carries 6 bytes of trailing alignment padding before the
8-aligned `mtime` field. -/
theorem c8_spoof_size_counterexample :
    ioctlSpoofArgsSize = 280 ∧ spoofFieldSizeSum = 274 ∧
    ioctlSpoofArgsSize ≠ spoofFieldSizeSum := by
  decide

/-- Claim C8 (amended): the total byte size of the spoof ioctl argument
struct equals the declared wire-compatibility constant of the
compile-time assertion, and equals the sum of the field sizes
name(256)+uid(4)+gid(4)+mode(2)+mtime(8) plus 6 bytes of alignment
padding. -/
theorem c8_spoof_size_amended :
    ioctlSpoofArgsSize = spoofSizeAssertConst ∧
    ioctlSpoofArgsSize = spoofFieldSizeSum + 6 := by
  decide

/-- Claim C9: every single-name protocol operation (hide, unhide,
unredirect, spoof, unspoof, unmerge) rejects a name of encoded length
at least 256 with a name-too-long error and issues no ioctl at all;
for a shorter name it issues exactly one ioctl carrying the name
NUL-padded into a 256-byte buffer. -/
theorem c9_name_length_boundary (name : List Nat) (uid gid mode mtime : Nat) :
    (256 ≤ name.length →
      hide name = ([], .error .nameTooLong) ∧
      unhide name = ([], .error .nameTooLong) ∧
      unredirect name = ([], .error .nameTooLong) ∧
      unspoof name = ([], .error .nameTooLong) ∧
      unmerge name = ([], .error .nameTooLong) ∧
      spoof name uid gid mode mtime = ([], .error .nameTooLong)) ∧
    (name.length < 256 →
      (name ++ List.replicate (256 - name.length) 0).length = 256 ∧
      hide name = ([.bufCall 1 (name ++ List.replicate (256 - name.length) 0)], .ok ()) ∧
      unhide name = ([.bufCall 2 (name ++ List.replicate (256 - name.length) 0)], .ok ()) ∧
      unredirect name = ([.bufCall 5 (name ++ List.replicate (256 - name.length) 0)], .ok ()) ∧
      unspoof name = ([.bufCall 8 (name ++ List.replicate (256 - name.length) 0)], .ok ()) ∧
      unmerge name = ([.bufCall 11 (name ++ List.replicate (256 - name.length) 0)], .ok ()) ∧
      spoof name uid gid mode mtime =
        ([.spoofCall (name ++ List.replicate (256 - name.length) 0) uid gid mode mtime], .ok ())) := by
  constructor
  · intro h
    simp [hide, unhide, unredirect, unspoof, unmerge, spoof, h]
  · intro h
    have h2 : ¬ 256 ≤ name.length := by omega
    refine ⟨?_, ?_⟩
    · simp [List.length_append, List.length_replicate]
      omega
    · simp [hide, unhide, unredirect, unspoof, unmerge, spoof, encodeNameBuf, h2]

/-- Witness for C9: a 256-byte name is rejected with no ioctl issued,
while a 1-byte name is padded into a 256-byte buffer. -/
theorem c9_name_length_boundary_witness :
    hide (List.replicate 256 0) = ([], .error .nameTooLong) ∧
    hide [104] = ([.bufCall 1 ([104] ++ List.replicate 255 0)], .ok ()) ∧
    (([104] : List Nat) ++ List.replicate 255 0).length = 256 := by
  refine ⟨((c9_name_length_boundary (List.replicate 256 0) 0 0 0 0).1 (by simp)).1, ?_, ?_⟩
  · exact ((c9_name_length_boundary [104] 0 0 0 0).2 (by decide)).2.1
  · exact ((c9_name_length_boundary [104] 0 0 0 0).2 (by decide)).1

end Poaceae

namespace Hymo

/-- Claim C5: `check_status` returns `NotPresent` when the control
device cannot be opened or the get-version ioctl fails, `KernelTooOld`
when the reported version is strictly below the expected protocol
version, `ModuleTooOld` when it is strictly above, and `Available`
exactly when the version matches. -/
theorem c5_check_status_classification (openOk : Bool) (vres : Option Int) :
    (openOk = false → check_status openOk vres = .NotPresent) ∧
    (vres = none → check_status openOk vres = .NotPresent) ∧
    (∀ v : Int, vres = some v → openOk = true →
      ((v < EXPECTED_PROTOCOL_VERSION → check_status openOk vres = .KernelTooOld) ∧
       (EXPECTED_PROTOCOL_VERSION < v → check_status openOk vres = .ModuleTooOld) ∧
       (check_status openOk vres = .Available ↔ v = EXPECTED_PROTOCOL_VERSION))) := by
  refine ⟨?_, ?_, ?_⟩
  · intro h
    subst h
    simp [check_status]
  · intro h
    subst h
    cases openOk <;> simp [check_status]
  · intro v hv ho
    subst hv
    subst ho
    refine ⟨?_, ?_, ?_⟩
    · intro hlt
      have hne : v ≠ EXPECTED_PROTOCOL_VERSION := by
        unfold EXPECTED_PROTOCOL_VERSION at hlt ⊢
        omega
      simp [check_status, hne, hlt]
    · intro hgt
      have hne : v ≠ EXPECTED_PROTOCOL_VERSION := by
        unfold EXPECTED_PROTOCOL_VERSION at hgt ⊢
        omega
      have hnlt : ¬ v < EXPECTED_PROTOCOL_VERSION := by
        unfold EXPECTED_PROTOCOL_VERSION at hgt ⊢
        omega
      simp [check_status, hne, hnlt]
    · constructor
      · intro h
        by_contra hne
        have hne2 : v ≠ EXPECTED_PROTOCOL_VERSION := hne
        by_cases hlt : v < EXPECTED_PROTOCOL_VERSION <;>
          simp [check_status, hne2, hlt] at h
      · intro h
        subst h
        simp [check_status]

/-- Witness for C5: concrete version reports 3, 5 and 4 are classified
as KernelTooOld, ModuleTooOld and Available, and failed open / failed
ioctl yield NotPresent. -/
theorem c5_check_status_classification_witness :
    check_status false (some 4) = .NotPresent ∧
    check_status true none = .NotPresent ∧
    check_status true (some 3) = .KernelTooOld ∧
    check_status true (some 5) = .ModuleTooOld ∧
    check_status true (some 4) = .Available := by
  refine ⟨?_, ?_, ?_, ?_, ?_⟩
  · exact (c5_check_status_classification false (some 4)).1 rfl
  · exact (c5_check_status_classification true none).2.1 rfl
  · exact (((c5_check_status_classification true (some 3)).2.2 3 rfl rfl).1 (by decide))
  · exact (((c5_check_status_classification true (some 5)).2.2 5 rfl rfl).2.1 (by decide))
  · exact (((c5_check_status_classification true (some 4)).2.2 4 rfl rfl).2.2.mpr rfl)

/-- Claim C10: in `inject_directory`, a character-device entry with a
nonzero device number contributes no rule at all — inserting such an
entry anywhere in the walk leaves the emitted rule batch unchanged —
while a character device with device number zero contributes exactly a
Hide rule for its target path. -/
theorem c10_chardev_rules (base mdir p : String) (r : Nat)
    (l1 l2 : List (String × FType)) :
    (r ≠ 0 →
      rulesForEntry base mdir p (.charDev r) = [] ∧
      inject_directory base mdir (l1 ++ (p, FType.charDev r) :: l2) =
        inject_directory base mdir (l1 ++ l2)) ∧
    rulesForEntry base mdir p (.charDev 0) = [HymoRule.Hide (base ++ "/" ++ p)] := by
  constructor
  · intro hr
    constructor
    · simp [rulesForEntry, hr]
    · simp [inject_directory, List.flatMap_append, rulesForEntry, hr]
  · simp [rulesForEntry]

/-- Witness for C10: a stub `dev` entry with rdev 1 adds nothing to the
batch; with rdev 0 it yields exactly a Hide rule. -/
theorem c10_chardev_rules_witness :
    (rulesForEntry "/t" "/m" "dev" (.charDev 1) = [] ∧
      inject_directory "/t" "/m" ([] ++ ("dev", FType.charDev 1) :: []) =
        inject_directory "/t" "/m" ([] ++ [])) ∧
    rulesForEntry "/t" "/m" "dev" (.charDev 0) = [HymoRule.Hide ("/t" ++ "/" ++ "dev")] :=
  ⟨(c10_chardev_rules "/t" "/m" "dev" 1 [] []).1 (by decide),
   (c10_chardev_rules "/t" "/m" "dev" 0 [] []).2⟩

end Hymo

namespace Storage

/-- Claim C4: with `forceExt4` false, a successful tmpfs mount and a
failed xattr probe, `setup_storage` unmounts the tmpfs (detach) and
never returns the tmpfs backend: a missing image file yields the
image-missing error, and an existing image file (whose ext4 mount
succeeds) yields the ext4 backend. -/
theorem c4_no_tmpfs_without_xattr (env : StorageEnv)
    (hT : env.tmpfsMountOk = true) (hX : env.xattrSupported = false) :
    SEvent.unmountedDetach ∈ (setup_storage env false).1 ∧
    (setup_storage env false).2 ≠ .ok "tmpfs" ∧
    (env.imageExists = false → (setup_storage env false).2 = .error .imageMissing) ∧
    (env.imageExists = true → env.imageMountOk = true →
      (setup_storage env false).2 = .ok "ext4") := by
  cases himg : env.imageExists <;> cases hok : env.imageMountOk <;>
    simp [setup_storage, hT, hX, himg, hok]

/-- Witness for C4: concrete environments with and without the image
file. -/
theorem c4_no_tmpfs_without_xattr_witness :
    SEvent.unmountedDetach ∈
      (setup_storage ⟨true, false, true, true⟩ false).1 ∧
    (setup_storage ⟨true, false, true, true⟩ false).2 = .ok "ext4" ∧
    (setup_storage ⟨true, false, false, true⟩ false).2 = .error .imageMissing :=
  ⟨(c4_no_tmpfs_without_xattr ⟨true, false, true, true⟩ rfl rfl).1,
   (c4_no_tmpfs_without_xattr ⟨true, false, true, true⟩ rfl rfl).2.2.2 rfl rfl,
   (c4_no_tmpfs_without_xattr ⟨true, false, false, true⟩ rfl rfl).2.2.1 rfl⟩

end Storage

namespace OverlayOpts

/-- String append is associative. -/
theorem sappend_assoc (a b c : String) : a ++ b ++ c = a ++ (b ++ c) := by
  apply String.ext
  simp [String.data_append]

/-- Fold the literal key and the `=` sign of a `lowerdir` option. -/
theorem mergeEqLower (X : String) : "lowerdir" ++ ("=" ++ X) = "lowerdir=" ++ X := by
  rw [← sappend_assoc]; rfl

/-- Fold the literal key and the `=` sign of an `upperdir` option. -/
theorem mergeEqUpper (X : String) : "upperdir" ++ ("=" ++ X) = "upperdir=" ++ X := by
  rw [← sappend_assoc]; rfl

/-- Fold the literal key and the `=` sign of a `workdir` option. -/
theorem mergeEqWork (X : String) : "workdir" ++ ("=" ++ X) = "workdir=" ++ X := by
  rw [← sappend_assoc]; rfl

/-- Fold a comma into a following `upperdir=` literal. -/
theorem mergeCommaUpper (X : String) : "," ++ ("upperdir=" ++ X) = ",upperdir=" ++ X := by
  rw [← sappend_assoc]; rfl

/-- Fold a comma into a following `workdir=` literal. -/
theorem mergeCommaWork (X : String) : "," ++ ("workdir=" ++ X) = ",workdir=" ++ X := by
  rw [← sappend_assoc]; rfl

/-- Claim C7: the classic mount-syscall fallback data string of
`mount_overlayfs` is exactly the comma-joined rendering of the
non-source fsconfig options of the preferred fsopen path: both carry
the same colon-joined lowerdir chain (ordered lower dirs, then the
stock root as lowest layer), and both include `upperdir`/`workdir`
exactly when both are supplied and exist. -/
theorem c7_fallback_equivalent (lowerDirs : List String) (lowest : String)
    (upper work : Option String) (fsExists : String → Bool) (src : String) :
    fallbackData lowerDirs lowest (existingDir fsExists upper) (existingDir fsExists work) =
      joinPairs ((fsconfigPairs lowerDirs lowest (existingDir fsExists upper)
        (existingDir fsExists work) src).filter (fun kv => !(kv.1 == "source"))) ∧
    ("lowerdir", String.intercalate ":" (lowerDirs ++ [lowest])) ∈
      fsconfigPairs lowerDirs lowest (existingDir fsExists upper)
        (existingDir fsExists work) src ∧
    (match existingDir fsExists upper, existingDir fsExists work with
     | some us, some ws =>
       fsconfigPairs lowerDirs lowest (existingDir fsExists upper)
           (existingDir fsExists work) src =
         [("lowerdir", lowerdir_config lowerDirs lowest), ("upperdir", us),
          ("workdir", ws), ("source", src)]
     | _, _ =>
       fsconfigPairs lowerDirs lowest (existingDir fsExists upper)
           (existingDir fsExists work) src =
         [("lowerdir", lowerdir_config lowerDirs lowest), ("source", src)]) := by
  rcases hu : existingDir fsExists upper with _ | us <;>
    rcases hw : existingDir fsExists work with _ | ws <;>
      refine ⟨?_, ?_, ?_⟩ <;>
        simp [hu, hw, fallbackData, fsconfigPairs, joinPairs, lowerdir_config,
          sappend_assoc, mergeEqLower, mergeEqUpper, mergeEqWork,
          mergeCommaUpper, mergeCommaWork]

end OverlayOpts

namespace Classify

/-- Claim C2: the overlay layer order is not the module discovery
order, and is not stable across runs given an identical directory
listing.  `run` stores the scanned modules in a `HashMap` and builds
each partition's layer list by iterating that map, whose iteration
order is unspecified and randomly seeded per process: `modsScanC2` and
its reverse are both legal iteration orders of the same scanned map
contents, yet they yield different ordered lower-directory sequences
for the `system` partition. -/
theorem c2_layer_order_unstable :
    modsScanC2.reverse.Perm modsScanC2 ∧
    overlayPaths (groupModules modsScanC2 [] BUILTIN_PARTITIONS isDirC2).1 "system" =
      ["/m/a/system", "/m/b/system"] ∧
    overlayPaths (groupModules modsScanC2.reverse [] BUILTIN_PARTITIONS isDirC2).1 "system" =
      ["/m/b/system", "/m/a/system"] ∧
    overlayPaths (groupModules modsScanC2 [] BUILTIN_PARTITIONS isDirC2).1 "system" ≠
      overlayPaths (groupModules modsScanC2.reverse [] BUILTIN_PARTITIONS isDirC2).1 "system" :=
  ⟨List.reverse_perm _, by decide, by decide, by decide⟩

end Classify

namespace Classify

/-- Inserting an element puts it in the set. -/
theorem mem_insertSet_self (s : List String) (x : String) : x ∈ insertSet s x := by
  unfold insertSet
  split
  · assumption
  · simp

/-- Inserting preserves existing members. -/
theorem mem_insertSet_of_mem {s : List String} {y : String} (x : String)
    (h : y ∈ s) : y ∈ insertSet s x := by
  unfold insertSet
  split
  · exact h
  · exact List.mem_append_left _ h

/-- `insertAll` preserves existing members. -/
theorem mem_insertAll_of_mem {l s : List String} {y : String} (h : y ∈ s) :
    y ∈ insertAll l s := by
  induction l generalizing s with
  | nil => exact h
  | cons x rest ih => exact ih (mem_insertSet_of_mem x h)

/-- `insertAll` inserts every element of its first argument. -/
theorem mem_insertAll_self {l s : List String} {m : String} (h : m ∈ l) :
    m ∈ insertAll l s := by
  induction l generalizing s with
  | nil => exact absurd h (List.not_mem_nil m)
  | cons x rest ih =>
    rw [insertAll]
    rcases List.mem_cons.mp h with rfl | hr
    · exact mem_insertAll_of_mem (mem_insertSet_self s m)
    · exact ih hr

/-- The pass-1 loop only ever grows the magic set. -/
theorem mem_runPass1Loop_of_mem {doMount : String → List String → Bool}
    {pmap : List (String × List String)} {magic : List String} {m : String}
    (h : m ∈ magic) : m ∈ runPass1Loop doMount pmap magic := by
  induction pmap generalizing magic with
  | nil => exact h
  | cons pm rest ih =>
    unfold runPass1Loop
    split
    · exact ih h
    · exact ih (mem_insertAll_of_mem h)

/-- If a partition's `mount_overlay` call fails on pass 1, every
module of that partition ends up in the magic-mount set. -/
theorem mem_runPass1_of_failed {pmap : List (String × List String)}
    {doMount : String → List String → Bool} {magic0 : List String}
    {p : String} {mods : List String} {m : String}
    (hp : (p, mods) ∈ pmap) (hdo : doMount p mods = false) (hm : m ∈ mods) :
    m ∈ runPass1 pmap doMount magic0 := by
  unfold runPass1
  induction pmap generalizing magic0 with
  | nil => exact absurd hp (List.not_mem_nil _)
  | cons pm rest ih =>
    rcases List.mem_cons.mp hp with rfl | hr
    · unfold runPass1Loop
      rw [hdo]
      simp only [Bool.false_eq_true, if_false]
      exact mem_runPass1Loop_of_mem (mem_insertAll_self hm)
    · unfold runPass1Loop
      split
      · exact ih hr
      · exact ih hr

/-- Membership in the layers of `pushPart` comes from the original map
or is the pushed path. -/
theorem inLayers_pushPart {pm : List (String × List String)}
    {part path q : String} (h : InLayers (pushPart pm part path) q) :
    InLayers pm q ∨ q = path := by
  induction pm with
  | nil =>
    rcases h with ⟨pl, hpl, hq⟩
    simp only [pushPart, List.mem_singleton] at hpl
    subst hpl
    simp only [List.mem_singleton] at hq
    exact Or.inr hq
  | cons kv rest ih =>
    by_cases hk : kv.1 = part
    · rw [pushPart, if_pos hk] at h
      rcases h with ⟨pl, hpl, hq⟩
      rcases List.mem_cons.mp hpl with rfl | hrest
      · rcases List.mem_append.mp hq with h1 | h2
        · exact Or.inl ⟨kv, List.mem_cons_self kv rest, h1⟩
        · simp only [List.mem_singleton] at h2
          exact Or.inr h2
      · exact Or.inl ⟨pl, List.mem_cons_of_mem kv hrest, hq⟩
    · rw [pushPart, if_neg hk] at h
      rcases h with ⟨pl, hpl, hq⟩
      rcases List.mem_cons.mp hpl with rfl | hrest
      · exact Or.inl ⟨pl, List.mem_cons_self pl rest, hq⟩
      · rcases ih ⟨pl, hrest, hq⟩ with h1 | h2
        · rcases h1 with ⟨pl2, hpl2, hq2⟩
          exact Or.inl ⟨pl2, List.mem_cons_of_mem kv hpl2, hq2⟩
        · exact Or.inr h2

/-- Membership in the layers after `addAuto` comes from the original
map or is the added module path. -/
theorem inLayers_addAuto {parts : List String} {isDir : String → Bool}
    {path q : String} {pm : List (String × List String)}
    (h : InLayers (addAuto parts isDir path pm) q) :
    InLayers pm q ∨ q = path := by
  induction parts generalizing pm with
  | nil => exact Or.inl h
  | cons part rest ih =>
    rw [addAuto] at h
    rcases ih h with h1 | h2
    · by_cases hd : isDir (path ++ "/" ++ part)
      · rw [if_pos hd] at h1
        exact inLayers_pushPart h1
      · rw [if_neg hd] at h1
        exact Or.inl h1
    · exact Or.inr h2

/-- Membership in the layers after the whole grouping loop comes from
the starting accumulator or from some non-magic module's content
path. -/
theorem inLayers_groupLoop {modes : List (String × String)}
    {parts : List String} {isDir : String → Bool}
    {mods : List (String × String)}
    {acc : List (String × List String) × List String} {q : String}
    (h : InLayers (groupLoop modes parts isDir mods acc).1 q) :
    InLayers acc.1 q ∨
      ∃ m ∈ mods, m.2 = q ∧ resolveMode modes m.1 ≠ "magic" := by
  induction mods generalizing acc with
  | nil => exact Or.inl h
  | cons m rest ih =>
    rw [groupLoop] at h
    rcases ih h with h1 | h2
    · by_cases hm : resolveMode modes m.1 = "magic"
      · rw [groupStep, if_pos hm] at h1
        exact Or.inl h1
      · rw [groupStep, if_neg hm] at h1
        rcases inLayers_addAuto h1 with ha | hb
        · exact Or.inl ha
        · exact Or.inr ⟨m, List.mem_cons_self m rest, hb.symm, hm⟩
    · rcases h2 with ⟨m2, hm2, he, hn⟩
      exact Or.inr ⟨m2, List.mem_cons_of_mem m hm2, he, hn⟩

/-- The grouping loop only ever grows the magic set. -/
theorem mem_magic_groupLoop_of_mem {modes : List (String × String)}
    {parts : List String} {isDir : String → Bool}
    {mods : List (String × String)}
    {acc : List (String × List String) × List String} {q : String}
    (h : q ∈ acc.2) : q ∈ (groupLoop modes parts isDir mods acc).2 := by
  induction mods generalizing acc with
  | nil => exact h
  | cons m rest ih =>
    rw [groupLoop]
    apply ih
    unfold groupStep
    split
    · exact mem_insertSet_of_mem _ h
    · exact h

/-- A module resolved to magic mode lands in the magic set. -/
theorem mem_magic_groupLoop {modes : List (String × String)}
    {parts : List String} {isDir : String → Bool}
    {mods : List (String × String)}
    {acc : List (String × List String) × List String} {id path : String}
    (hm : (id, path) ∈ mods) (hmagic : resolveMode modes id = "magic") :
    path ∈ (groupLoop modes parts isDir mods acc).2 := by
  induction mods generalizing acc with
  | nil => exact absurd hm (List.not_mem_nil _)
  | cons m rest ih =>
    rcases List.mem_cons.mp hm with rfl | hr
    · rw [groupLoop]
      apply mem_magic_groupLoop_of_mem
      rw [groupStep, if_pos hmagic]
      exact mem_insertSet_self _ _
    · rw [groupLoop]
      exact ih hr

/-- Claim C3: a module whose resolved mount mode is magic never has its
content path in any partition's overlay layer list, and its content
path is placed in the magic-mount set.  (`huniq` records that a content
path identifies its module: in `run`, `content_path = mnt_base/id`.) -/
theorem c3_magic_module_never_in_layers (mods modes : List (String × String))
    (parts : List String) (isDir : String → Bool) (id path : String)
    (hmem : (id, path) ∈ mods)
    (hmagic : resolveMode modes id = "magic")
    (huniq : ∀ q ∈ mods, q.2 = path → resolveMode modes q.1 = "magic") :
    (∀ part layers, (part, layers) ∈ (groupModules mods modes parts isDir).1 →
      path ∉ layers) ∧
    path ∈ (groupModules mods modes parts isDir).2 := by
  constructor
  · intro part layers hpl hq
    have h : InLayers (groupLoop modes parts isDir mods ([], [])).1 path :=
      ⟨(part, layers), hpl, hq⟩
    rcases inLayers_groupLoop h with h1 | ⟨m, hmm, he, hn⟩
    · rcases h1 with ⟨pl, hpl2, _⟩
      exact absurd hpl2 (List.not_mem_nil pl)
    · exact hn (huniq m hmm he)
  · exact mem_magic_groupLoop hmem hmagic

/-- Witness for C3: a single module overridden to magic mode appears in
the magic set and in no layer list. -/
theorem c3_magic_module_never_in_layers_witness :
    (∀ part layers,
      (part, layers) ∈
        (groupModules [("x", "/m/x")] [("x", "magic")] BUILTIN_PARTITIONS
          (fun _ => true)).1 → "/m/x" ∉ layers) ∧
    "/m/x" ∈
      (groupModules [("x", "/m/x")] [("x", "magic")] BUILTIN_PARTITIONS
        (fun _ => true)).2 :=
  c3_magic_module_never_in_layers [("x", "/m/x")] [("x", "magic")]
    BUILTIN_PARTITIONS (fun _ => true) "x" "/m/x" (by decide) (by decide)
    (by decide)

end Classify

namespace OverlayMount

/-- Replaying a trace that ends with an unmount of `dest` leaves no
overlay mounted on `dest`. -/
theorem mountedAfter_append_unmounted (l : List MEvent) (dest : String) :
    mountedAfter (l ++ [MEvent.unmounted dest]) dest = false := by
  unfold mountedAfter
  rw [List.foldl_append]
  simp

/-- If some snapshot entry is not skipped and its child step fails
(bind fallback included), the child loop returns an error and its
trace ends with the detach unmount of the root overlay. -/
theorem processChildren_fail {fs : Fs} {root : String}
    {moduleRoots : List String} {seq : List String}
    (hu : fs.unmountOk root = true)
    (hfail : ∃ mp ∈ seq, childStepFails fs root moduleRoots mp = true) :
    (processChildren fs root moduleRoots seq).2 = false ∧
    ∃ evs, (processChildren fs root moduleRoots seq).1 =
      evs ++ [MEvent.unmounted root] := by
  induction seq with
  | nil =>
    rcases hfail with ⟨mp, hmem, _⟩
    exact absurd hmem (List.not_mem_nil mp)
  | cons mp rest ih =>
    by_cases hex : fs.pathExists (stockRootOf root mp) = true
    · by_cases hc :
        (mount_overlay_child fs mp (relativeOf root mp) moduleRoots
          (stockRootOf root mp)).2 = true
      · have hfail2 : ∃ mp2 ∈ rest, childStepFails fs root moduleRoots mp2 = true := by
          rcases hfail with ⟨mp2, hmem, hf⟩
          rcases List.mem_cons.mp hmem with rfl | hr
          · exfalso
            unfold childStepFails at hf
            rw [Bool.and_eq_true] at hf
            rw [hc] at hf
            simp at hf
          · exact ⟨mp2, hr, hf⟩
        obtain ⟨h1, evs, h2⟩ := ih hfail2
        rw [processChildren]
        simp only [hex, not_true_eq_false, if_false, hc, if_true]
        refine ⟨h1, (mount_overlay_child fs mp (relativeOf root mp) moduleRoots
          (stockRootOf root mp)).1 ++ evs, ?_⟩
        rw [h2, List.append_assoc]
      · rw [processChildren]
        simp only [hex, not_true_eq_false, if_false, hc, if_false, hu, if_true]
        exact ⟨rfl, (mount_overlay_child fs mp (relativeOf root mp) moduleRoots
          (stockRootOf root mp)).1, rfl⟩
    · have hfail2 : ∃ mp2 ∈ rest, childStepFails fs root moduleRoots mp2 = true := by
        rcases hfail with ⟨mp2, hmem, hf⟩
        rcases List.mem_cons.mp hmem with rfl | hr
        · exfalso
          unfold childStepFails at hf
          rw [Bool.and_eq_true] at hf
          exact hex hf.1
        · exact ⟨mp2, hr, hf⟩
      obtain ⟨h1, evs, h2⟩ := ih hfail2
      rw [processChildren]
      simp only [hex, not_false_eq_true, if_true]
      exact ⟨h1, evs, h2⟩

/-- Claim C1: if, while composing a partition's overlay, some
non-skipped snapshot entry's child step fails and its bind-mount
fallback also fails, then the root overlay placed on the partition is
unmounted (detached), `mount_overlay` returns the error, no overlay is
left on the partition, and pass 1 of `run` adds every module of that
partition to the magic-mount fallback set. -/
theorem c1_child_failure_rollback (fs : Fs) (root : String)
    (moduleRoots mountSeq : List String)
    (pmap : List (String × List String)) (p : String) (mods : List String)
    (magic0 : List String) (doMount : String → List String → Bool)
    (hchdir : fs.chdirOk = true)
    (hroot : fs.overlayMountOk root = true)
    (hum : fs.unmountOk root = true)
    (hfail : ∃ mp ∈ mountSeq, childStepFails fs root moduleRoots mp = true)
    (hp : (p, mods) ∈ pmap)
    (hdo : doMount p mods = (mount_overlay fs root moduleRoots mountSeq).2) :
    (mount_overlay fs root moduleRoots mountSeq).2 = false ∧
    MEvent.unmounted root ∈ (mount_overlay fs root moduleRoots mountSeq).1 ∧
    mountedAfter (mount_overlay fs root moduleRoots mountSeq).1 root = false ∧
    ∀ m ∈ mods, m ∈ Classify.runPass1 pmap doMount magic0 := by
  obtain ⟨h1, evs, h2⟩ := processChildren_fail hum hfail
  have hmo : mount_overlay fs root moduleRoots mountSeq =
      (MEvent.overlayMounted root ::
        (processChildren fs root moduleRoots mountSeq).1,
       (processChildren fs root moduleRoots mountSeq).2) := by
    rw [mount_overlay]
    simp [mountOverlayfsAt, hchdir, hroot]
  refine ⟨?_, ?_, ?_, ?_⟩
  · rw [hmo]
    exact h1
  · rw [hmo, h2]
    simp
  · rw [hmo, h2]
    have : MEvent.overlayMounted root :: (evs ++ [MEvent.unmounted root]) =
        (MEvent.overlayMounted root :: evs) ++ [MEvent.unmounted root] := by
      simp
    rw [this]
    exact mountedAfter_append_unmounted _ root
  · intro m hm
    have hdo2 : doMount p mods = false := by
      rw [hdo, hmo]
      exact h1
    exact Classify.mem_runPass1_of_failed hp hdo2 hm

/-- Witness for C1: a concrete environment where the only snapshot
entry's child overlay and bind fallback both fail; the root overlay is
rolled back and the partition's single module is queued for magic
mount. -/
theorem c1_child_failure_rollback_witness :
    (mount_overlay fsC1 "/system" ["/m/a"] ["/system/sub"]).2 = false ∧
    MEvent.unmounted "/system" ∈
      (mount_overlay fsC1 "/system" ["/m/a"] ["/system/sub"]).1 ∧
    mountedAfter (mount_overlay fsC1 "/system" ["/m/a"] ["/system/sub"]).1
      "/system" = false ∧
    ∀ m ∈ ["/m/a"], m ∈ Classify.runPass1 [("system", ["/m/a"])]
      (fun _ _ => false) [] :=
  c1_child_failure_rollback fsC1 "/system" ["/m/a"] ["/system/sub"]
    [("system", ["/m/a"])] "system" ["/m/a"] [] (fun _ _ => false)
    (by decide) (by decide) (by decide) (by decide) (by decide) (by decide)

/-- Claim C6, counterexample: a snapshot entry whose stock path exists
but is not a directory is not always skipped — when no lower directory
has an entry at its relative path, the child step bind-mounts the
(non-directory) stock path, performing a mount operation. -/
theorem c6_nondir_skip_counterexample :
    fsC6.pathExists "./sub" = true ∧
    fsC6.isDir "./sub" = false ∧
    (["/m/a"].any (fun lower => fsC6.pathExists (rustJoin lower "/sub"))) = false ∧
    (mount_overlay_child fsC6 "/system/sub" "/sub" ["/m/a"] "./sub").1 =
      [MEvent.bindMounted "/system/sub"] := by
  decide

/-- Claim C6 (amended): a snapshot entry whose stock path exists but is
not a directory is skipped with no mount operation provided at least
one lower directory has an entry at its relative path; when none has,
the stock path is re-bind-mounted instead. -/
theorem c6_nondir_skip_amended (fs : Fs) (mountPoint relative : String)
    (moduleRoots : List String) (stockRoot : String)
    (hex : fs.pathExists stockRoot = true)
    (hnd : fs.isDir stockRoot = false) :
    (moduleRoots.any (fun lower => fs.pathExists (rustJoin lower relative)) = true →
      mount_overlay_child fs mountPoint relative moduleRoots stockRoot = ([], true)) ∧
    (moduleRoots.any (fun lower => fs.pathExists (rustJoin lower relative)) = false →
      mount_overlay_child fs mountPoint relative moduleRoots stockRoot =
        bindMountAt fs mountPoint) := by
  constructor
  · intro h
    rw [mount_overlay_child]
    simp only [h, not_true_eq_false, if_false, hnd, Bool.false_eq_true,
      not_false_eq_true, if_true]
  · intro h
    rw [mount_overlay_child]
    simp only [h, Bool.false_eq_true, not_false_eq_true, if_true]

/-- Witness for C6 (amended): with a contributing lower entry the
non-directory stock entry is skipped outright; without one it is
re-bind-mounted. -/
theorem c6_nondir_skip_amended_witness :
    ((["/m/a"].any (fun lower => fsC6A.pathExists (rustJoin lower "/sub"))) = true →
      mount_overlay_child fsC6A "/system/sub" "/sub" ["/m/a"] "./sub" = ([], true)) ∧
    ((["/m/a"].any (fun lower => fsC6A.pathExists (rustJoin lower "/sub"))) = false →
      mount_overlay_child fsC6A "/system/sub" "/sub" ["/m/a"] "./sub" =
        bindMountAt fsC6A "/system/sub") :=
  c6_nondir_skip_amended fsC6A "/system/sub" "/sub" ["/m/a"] "./sub"
    (by decide) (by decide)

end OverlayMount
